import Mathlib

/-!
Verification of the persistent-process IPC core of the `exiftool` Rust crate
(`src/exiftool.rs` and `src/error.rs`), as a shallow embedding.

Modelling conventions:
* Bytes are `Nat` values; a raw response payload is a `List Nat`.
* The subprocess stdout stream is a script of chunks (`List (List Nat)`);
  an empty chunk, or the end of the script, is a zero-byte read (EOF).
* The stderr channel is a script of `try_recv` outcomes (`RecvEvent`), and the
  bounded poll window of `drain_stderr` is a fuel counter: one unit per loop
  iteration of the Rust polling loop.
* Strings are Lean `String`s, manipulated through their character lists so
  that every definition evaluates by kernel reduction.
* The JSON value tree mirrors `serde_json::Value`; a serde deserializer for a
  target type `T` is abstracted as a function `JValue → Option T`, and the
  generic JSON parser as `List Nat → Option JValue`.  Error payloads carried
  by external serde errors are dropped; only the error kind and its
  structured context fields (path, tag, command line) are kept, which is all
  the claims mention.
* Stateful methods of `ExifTool` take the behaviour of the layer they call as
  an explicit argument (`exec` for `execute_raw`, the chunk/event scripts for
  the streams), which is the usual explicit-state reading of `&mut self`.
-/

/-- Error type translated from `ExifToolError` in `src/error.rs`.  The
`Io`/`Json`/`Utf8` variants carry external error payloads in Rust; here they
are nullary since no claim inspects those payloads. -/
inductive ExifToolError where
  | ExifToolNotFound
  | IoErr
  | JsonErr
  | Utf8Err
  | FileNotFound (path : String) (command_args : String)
  | ExifToolProcess (message : String) (std_err : String) (command_args : String)
  | ProcessTerminated
  | StderrDisconnected
  | UnexpectedFormat (path : String) (command_args : String)
  | TagNotFound (path : String) (tag : String)
  | Deserialization (path : String)
  | TagDeserialization (path : String) (tag : String)
deriving DecidableEq

/-- JSON value tree, mirroring `serde_json::Value` (numbers collapsed to
`Int`; no claim depends on number representation). -/
inductive JValue where
  | null
  | bool (b : Bool)
  | num (n : Int)
  | str (s : String)
  | arr (elems : List JValue)
  | obj (fields : List (String × JValue))

/-- Rust `Vec::join` / `String::join` with a separator. -/
def joinWith (sep : String) : List String → String
  | [] => ""
  | [x] => x
  | x :: y :: rest => x ++ sep ++ joinWith sep (y :: rest)

def joinSpace (xs : List String) : String := joinWith " " xs

def joinComma (xs : List String) : String := joinWith "," xs

def joinCommaSpace (xs : List String) : String := joinWith ", " xs

def joinNl (xs : List String) : String := joinWith "\n" xs

/-- Index of the first occurrence of `m` as a contiguous run inside a list,
the translation of `buffer.windows(m.len()).position(|w| w == m)`. -/
def firstOccur {α : Type} [DecidableEq α] (m : List α) : List α → Option Nat
  | [] => none
  | b :: rest =>
    if m <+: (b :: rest) then some 0
    else (firstOccur m rest).map (· + 1)

/-- Rust `str::contains(pat)`. -/
def containsSubstring (s pat : String) : Bool :=
  (firstOccur pat.toList s.toList).isSome

/-- Rust `str::trim` (whitespace stripped from both ends). -/
def strTrim (s : String) : String :=
  String.mk (((s.toList.dropWhile Char.isWhitespace).reverse.dropWhile
      Char.isWhitespace).reverse)

/-- The diagnostic prefix recognised by `execute_raw`. -/
def fnfPrefix : String := "Error: File not found - "

/-- Rust `str::strip_prefix` specialised to the file-not-found prefix. -/
def stripFnf (l : String) : Option String :=
  if fnfPrefix.toList.isPrefixOf l.toList then
    some (String.mk (l.toList.drop fnfPrefix.toList.length))
  else none

/-- One `try_recv` outcome on the stderr channel. -/
inductive RecvEvent where
  | line (s : String)
  | empty
  | disconnected
deriving DecidableEq

/-- First phase of `drain_stderr`: empty whatever is immediately available.
Returns the collected lines and the unconsumed remainder of the event script;
`Disconnected` here aborts with `StderrDisconnected`.  An exhausted script
behaves as a channel that keeps reporting `Empty`. -/
def drainAvailable : List RecvEvent → List String →
    Except ExifToolError (List String × List RecvEvent)
  | [], acc => .ok (acc, [])
  | .line s :: rest, acc => drainAvailable rest (acc ++ [s])
  | .empty :: rest, acc => .ok (acc, rest)
  | .disconnected :: _, _ => .error .StderrDisconnected

/-- Second phase of `drain_stderr`: poll until the timeout elapses (fuel
exhausted), stopping early once lines were captured and a poll tick comes
back empty; a disconnect here is an error only when nothing was captured. -/
def pollLoop : Nat → List RecvEvent → List String → Except ExifToolError (List String)
  | 0, _, acc => .ok acc
  | n + 1, [], acc => if acc = [] then pollLoop n [] acc else .ok acc
  | n + 1, .line s :: rest, acc => pollLoop n rest (acc ++ [s])
  | n + 1, .empty :: rest, acc => if acc = [] then pollLoop n rest acc else .ok acc
  | _ + 1, .disconnected :: _, acc =>
    if acc = [] then .error .StderrDisconnected else .ok acc

/-- Translation of `ExifTool::drain_stderr`. -/
def drain_stderr (fuel : Nat) (events : List RecvEvent) :
    Except ExifToolError (List String) :=
  match drainAvailable events [] with
  | .error e => .error e
  | .ok (acc, rest) => pollLoop fuel rest acc

/-- The byte sequence of the line-feed-terminated ready marker. -/
def readyMarkerLF : List Nat := [123, 114, 101, 97, 100, 121, 125, 10]

/-- The byte sequence of the CR-LF-terminated ready marker. -/
def readyMarkerCRLF : List Nat := [123, 114, 101, 97, 100, 121, 125, 13, 10]

/-- Result of `read_response_until_ready` on a zero-byte read: drain stderr
(`unwrap_or_default`), report a process error when lines arrived, else
`ProcessTerminated`. -/
def eofResult (drainRes : Except ExifToolError (List String)) :
    Except ExifToolError (List Nat) :=
  let stderr_lines := match drainRes with
    | .ok l => l
    | .error _ => []
  if stderr_lines ≠ [] then
    .error (.ExifToolProcess
      ("Process terminated unexpectedly. Stderr:\n" ++ joinNl stderr_lines)
      (joinNl stderr_lines)
      "<unknown - process terminated>")
  else .error .ProcessTerminated

/-- Loop of `ExifTool::read_response_until_ready`: accumulate chunks; after
each chunk look for the LF marker anywhere in the buffer, then for the CRLF
marker; on a hit return the bytes before the hit (the Rust code also drops
whatever followed the marker in its local buffer). -/
def readLoop (drainRes : Except ExifToolError (List String)) :
    List Nat → List (List Nat) → Except ExifToolError (List Nat)
  | _, [] => eofResult drainRes
  | buffer, chunk :: restChunks =>
    if chunk = [] then eofResult drainRes
    else
      let buffer2 := buffer ++ chunk
      match firstOccur readyMarkerLF buffer2 with
      | some pos => .ok (buffer2.take pos)
      | none =>
        match firstOccur readyMarkerCRLF buffer2 with
        | some pos => .ok (buffer2.take pos)
        | none => readLoop drainRes buffer2 restChunks

/-- Translation of `ExifTool::read_response_until_ready`; `drainRes` is the
outcome draining stderr would have at the moment EOF is observed. -/
def read_response_until_ready (drainRes : Except ExifToolError (List String))
    (chunks : List (List Nat)) : Except ExifToolError (List Nat) :=
  readLoop drainRes [] chunks

/-- Per-line classification loop of `ExifTool::execute_raw` step 6: the
file-not-found prefix wins on a line, then any line containing the error
marker, and warning lines are only logged. -/
def classifyStderr (cmd comb : String) : List String → Option ExifToolError
  | [] => none
  | l :: rest =>
    match stripFnf l with
    | some filename => some (.FileNotFound (strTrim filename) cmd)
    | none =>
      if containsSubstring l "Error:" then some (.ExifToolProcess l comb cmd)
      else classifyStderr cmd comb rest

/-- Translation of `ExifTool::execute_raw`.  The stale-line discard of step 1
is implicit: the event script describes the channel after that discard. -/
def execute_raw (args : List String) (chunks : List (List Nat))
    (events : List RecvEvent) (fuel : Nat) : Except ExifToolError (List Nat) :=
  match read_response_until_ready (drain_stderr fuel events) chunks with
  | .error e => .error e
  | .ok stdout_bytes =>
    match drain_stderr fuel events with
    | .error e => .error e
    | .ok stderr_lines =>
      if stderr_lines = [] then .ok stdout_bytes
      else
        match classifyStderr (joinSpace args) (joinNl stderr_lines) stderr_lines with
        | some e => .error e
        | none => .ok stdout_bytes

/-- `serde_json::Value::get` on an object, by key. -/
def objGet : JValue → String → Option JValue
  | .obj fields, key => (fields.find? (fun p => p.1 == key)).map (fun p => p.2)
  | _, _ => none

/-- The `args.iter().find(|a| !a.starts_with('-'))` fallback of
`json_execute`'s empty-output error path. -/
def firstNonFlag (args : List String) : String :=
  match args.find? (fun a => !("-".toList.isPrefixOf a.toList)) with
  | some a => a
  | none => "<unknown>"

/-- Translation of `ExifTool::json_execute`; `exec` is the behaviour of
`execute_raw` for this session, `parse` the JSON decoder. -/
def json_execute (exec : List String → Except ExifToolError (List Nat))
    (parse : List Nat → Option JValue) (args : List String) :
    Except ExifToolError JValue :=
  let cmd_args := "-json" :: args
  match exec cmd_args with
  | .error e => .error e
  | .ok output_bytes =>
    if output_bytes = [] then
      .error (.UnexpectedFormat (firstNonFlag args) (joinSpace cmd_args))
    else
      match parse output_bytes with
      | some v => .ok v
      | none => .error .JsonErr

/-- Translation of `ExifTool::json_batch`. -/
def json_batch (exec : List String → Except ExifToolError (List Nat))
    (parse : List Nat → Option JValue)
    (file_paths : List String) (extra_args : List String) :
    Except ExifToolError (List JValue) :=
  if file_paths = [] then
    .error (.UnexpectedFormat "" (joinComma extra_args))
  else
    let args := extra_args ++ file_paths
    match json_execute exec parse args with
    | .error e => .error e
    | .ok (.arr a) => .ok a
    | .ok _ =>
      .error (.UnexpectedFormat (joinCommaSpace file_paths)
        ("-json " ++ joinSpace args))

/-- Translation of `ExifTool::json` (single file). -/
def json (exec : List String → Except ExifToolError (List Nat))
    (parse : List Nat → Option JValue)
    (file_path : String) (extra_args : List String) : Except ExifToolError JValue :=
  match json_batch exec parse [file_path] extra_args with
  | .error e => .error e
  | .ok [] =>
    .error (.UnexpectedFormat file_path (joinSpace (extra_args ++ [file_path])))
  | .ok (v :: _) => .ok v

/-- Translation of `ExifTool::json_tag`. -/
def json_tag (exec : List String → Except ExifToolError (List Nat))
    (parse : List Nat → Option JValue)
    (file_path : String) (tag : String) : Except ExifToolError JValue :=
  match json exec parse file_path ["-" ++ tag] with
  | .error e => .error e
  | .ok metadata_json =>
    match objGet metadata_json tag with
    | some v => .ok v
    | none => .error (.TagNotFound file_path tag)

/-- Translation of `ExifTool::read_tag`; `fromValue` is the serde
deserializer of the target type `T`. -/
def read_tag {T : Type} (fromValue : JValue → Option T)
    (exec : List String → Except ExifToolError (List Nat))
    (parse : List Nat → Option JValue)
    (file_path : String) (tag : String) : Except ExifToolError T :=
  match json_tag exec parse file_path tag with
  | .ok value =>
    match fromValue value with
    | some t => .ok t
    | none => .error (.TagDeserialization file_path tag)
  | .error (.TagNotFound _ _) =>
    match fromValue .null with
    | some t => .ok t
    | none => .error (.TagNotFound file_path tag)
  | .error e => .error e

/-- Translation of `ExifTool::read_tag_binary`. -/
def read_tag_binary (exec : List String → Except ExifToolError (List Nat))
    (file_path : String) (tag : String) : Except ExifToolError (List Nat) :=
  match exec [file_path, "-b", "-" ++ tag] with
  | .error e => .error e
  | .ok bytes =>
    if bytes = [] then .error (.TagNotFound file_path tag)
    else .ok bytes

/-! ### Properties of the occurrence search -/

theorem firstOccur_some_iff {α : Type} [DecidableEq α] {m : List α} (hm : m ≠ [])
    {s : List α} {k : Nat} :
    firstOccur m s = some k ↔
      (m <+: s.drop k ∧ ∀ j, j < k → ¬ m <+: s.drop j) := by
  induction s generalizing k with
  | nil =>
    simp [firstOccur, List.prefix_nil, hm]
  | cons b rest ih =>
    by_cases h : m <+: (b :: rest)
    · simp only [firstOccur, if_pos h]
      constructor
      · rintro hk
        cases hk
        exact ⟨h, fun j hj => absurd hj (Nat.not_lt_zero j)⟩
      · rintro ⟨h1, h2⟩
        cases k with
        | zero => rfl
        | succ k0 => exact absurd h (h2 0 (Nat.succ_pos k0))
    · simp only [firstOccur, if_neg h]
      cases k with
      | zero =>
        simp only [List.drop_zero]
        constructor
        · intro hmap
          rcases Option.map_eq_some'.mp hmap with ⟨k0, _, hk0⟩
          omega
        · rintro ⟨h1, _⟩
          exact absurd h1 h
      | succ k0 =>
        constructor
        · intro hmap
          rcases Option.map_eq_some'.mp hmap with ⟨k1, hk1, hplus⟩
          have hk : k1 = k0 := by omega
          subst hk
          rcases ih.mp hk1 with ⟨h1, h2⟩
          refine ⟨h1, ?_⟩
          intro j hj
          cases j with
          | zero => simpa using h
          | succ j0 =>
            simp only [List.drop_succ_cons]
            exact h2 j0 (by omega)
        · rintro ⟨h1, h2⟩
          have hrest : firstOccur m rest = some k0 := by
            refine ih.mpr ⟨h1, ?_⟩
            intro j hj
            have := h2 (j + 1) (by omega)
            simpa using this
          simp [hrest]

theorem firstOccur_none_iff {α : Type} [DecidableEq α] {m : List α} (hm : m ≠ [])
    {s : List α} :
    firstOccur m s = none ↔ ∀ j, ¬ m <+: s.drop j := by
  induction s with
  | nil =>
    simp [firstOccur]
    intro h
    exact hm h
  | cons b rest ih =>
    by_cases h : m <+: (b :: rest)
    · simp only [firstOccur, if_pos h]
      constructor
      · intro hh; cases hh
      · intro hall
        exact absurd (by simpa using h) (hall 0)
    · simp only [firstOccur, if_neg h, Option.map_eq_none']
      rw [ih]
      constructor
      · intro hall j
        cases j with
        | zero => simpa using h
        | succ j0 => simpa using hall j0
      · intro hall j
        simpa using hall (j + 1)

theorem firstOccur_some_fit {α : Type} [DecidableEq α] {m t : List α} (hm : m ≠ [])
    {j : Nat} (h : firstOccur m t = some j) : j + m.length ≤ t.length := by
  rcases (firstOccur_some_iff hm).mp h with ⟨h1, _⟩
  have hlen := h1.length_le
  rw [List.length_drop] at hlen
  have hmpos : 0 < m.length := List.length_pos.mpr hm
  omega

theorem firstOccur_of_prefix {α : Type} [DecidableEq α] {m t s : List α} (hm : m ≠ [])
    (hpre : t <+: s) {k : Nat} (h : firstOccur m t = some k) :
    firstOccur m s = some k := by
  rcases (firstOccur_some_iff hm).mp h with ⟨h1, h2⟩
  have hfit := firstOccur_some_fit hm h
  refine (firstOccur_some_iff hm).mpr ⟨h1.trans (hpre.drop k), ?_⟩
  intro j hj hcon
  apply h2 j hj
  have hdp : t.drop j <+: s.drop j := hpre.drop j
  have hlen : m.length ≤ (t.drop j).length := by
    rw [List.length_drop]
    omega
  exact List.prefix_of_prefix_length_le hcon hdp hlen

theorem firstOccur_none_of_prefix {α : Type} [DecidableEq α] {m t s : List α} (hm : m ≠ [])
    (hpre : t <+: s) (h : firstOccur m s = none) : firstOccur m t = none := by
  rw [firstOccur_none_iff hm] at h ⊢
  intro j hcon
  exact h j (hcon.trans (hpre.drop j))

theorem firstOccur_prefix_of_le {α : Type} [DecidableEq α] {m t s : List α} (hm : m ≠ [])
    (hpre : t <+: s) {k : Nat} (h : firstOccur m s = some k)
    (hfit : k + m.length ≤ t.length) : firstOccur m t = some k := by
  rcases (firstOccur_some_iff hm).mp h with ⟨h1, h2⟩
  refine (firstOccur_some_iff hm).mpr ⟨?_, ?_⟩
  · have hdp : t.drop k <+: s.drop k := hpre.drop k
    have hlen : m.length ≤ (t.drop k).length := by
      rw [List.length_drop]
      omega
    exact List.prefix_of_prefix_length_le h1 hdp hlen
  · intro j hj hcon
    exact h2 j hj (hcon.trans (hpre.drop j))

theorem take_eq_of_pre {α : Type} {t s : List α} (h : t <+: s) {k : Nat}
    (hk : k ≤ t.length) : t.take k = s.take k := by
  rcases h with ⟨r, rfl⟩
  rw [List.take_append_of_le_length hk]

/-! ### Framer lemmas -/

theorem readyMarkerLF_ne : readyMarkerLF ≠ [] := by decide

theorem readyMarkerCRLF_ne : readyMarkerCRLF ≠ [] := by decide

theorem prefix_of_append_eq {α : Type} {t r s : List α} (h : t ++ r = s) : t <+: s :=
  ⟨r, h⟩

theorem readLoop_good (s : List Nat) (k : Nat)
    (hgood : (firstOccur readyMarkerLF s = some k ∧
                ∀ q, firstOccur readyMarkerCRLF s = some q → k ≤ q)
             ∨ (firstOccur readyMarkerLF s = none ∧
                firstOccur readyMarkerCRLF s = some k))
    (drainRes : Except ExifToolError (List String)) :
    ∀ chunks buffer, buffer ++ chunks.flatten = s → (∀ c ∈ chunks, c ≠ []) →
      firstOccur readyMarkerLF buffer = none →
      firstOccur readyMarkerCRLF buffer = none →
      readLoop drainRes buffer chunks = .ok (s.take k) := by
  intro chunks
  induction chunks with
  | nil =>
    intro buffer hcat _ h1 h2
    simp only [List.flatten_nil, List.append_nil] at hcat
    subst hcat
    rcases hgood with ⟨hlf, _⟩ | ⟨_, hcrlf⟩
    · rw [h1] at hlf; cases hlf
    · rw [h2] at hcrlf; cases hcrlf
  | cons c cs ih =>
    intro buffer hcat hne h1 h2
    have hcne : c ≠ [] := hne c (by simp)
    have hcat2 : (buffer ++ c) ++ cs.flatten = s := by
      simpa [List.append_assoc] using hcat
    have hpre : (buffer ++ c) <+: s := prefix_of_append_eq hcat2
    rw [readLoop, if_neg hcne]
    cases hlf2 : firstOccur readyMarkerLF (buffer ++ c) with
    | some p =>
      have hs : firstOccur readyMarkerLF s = some p :=
        firstOccur_of_prefix readyMarkerLF_ne hpre hlf2
      rcases hgood with ⟨hlf, _⟩ | ⟨hnone, _⟩
      · rw [hs] at hlf
        cases hlf
        have hfit := firstOccur_some_fit readyMarkerLF_ne hlf2
        simp only [hlf2]
        rw [take_eq_of_pre hpre (by omega)]
      · rw [hnone] at hs; cases hs
    | none =>
      cases hcrlf2 : firstOccur readyMarkerCRLF (buffer ++ c) with
      | some q =>
        have hs : firstOccur readyMarkerCRLF s = some q :=
          firstOccur_of_prefix readyMarkerCRLF_ne hpre hcrlf2
        have hfitq := firstOccur_some_fit readyMarkerCRLF_ne hcrlf2
        rcases hgood with ⟨hlf, hmin⟩ | ⟨_, hcrlf⟩
        · have hkq : k ≤ q := hmin q hs
          have hlf2' : firstOccur readyMarkerLF (buffer ++ c) = some k := by
            refine firstOccur_prefix_of_le readyMarkerLF_ne hpre hlf ?_
            have h8 : readyMarkerLF.length = 8 := by decide
            have h9 : readyMarkerCRLF.length = 9 := by decide
            rw [h8]
            rw [h9] at hfitq
            omega
          rw [hlf2'] at hlf2
          cases hlf2
        · rw [hcrlf] at hs
          cases hs
          simp only [hlf2, hcrlf2]
          rw [take_eq_of_pre hpre (by omega)]
      | none =>
        simp only [hlf2, hcrlf2]
        exact ih (buffer ++ c) hcat2 (fun d hd => hne d (by simp [hd])) hlf2 hcrlf2

theorem payload_marker_free (s : List Nat) (k : Nat)
    (hgood : (firstOccur readyMarkerLF s = some k ∧
                ∀ q, firstOccur readyMarkerCRLF s = some q → k ≤ q)
             ∨ (firstOccur readyMarkerLF s = none ∧
                firstOccur readyMarkerCRLF s = some k)) :
    firstOccur readyMarkerLF (s.take k) = none ∧
      firstOccur readyMarkerCRLF (s.take k) = none := by
  have htp : s.take k <+: s := by
    exact List.take_prefix k s
  constructor
  · cases hx : firstOccur readyMarkerLF (s.take k) with
    | none => rfl
    | some j =>
      exfalso
      have hs : firstOccur readyMarkerLF s = some j :=
        firstOccur_of_prefix readyMarkerLF_ne htp hx
      have hfit := firstOccur_some_fit readyMarkerLF_ne hx
      have hlen : (s.take k).length ≤ k := by
        simp [List.length_take]
      have h8 : readyMarkerLF.length = 8 := by decide
      rcases hgood with ⟨hlf, _⟩ | ⟨hnone, _⟩
      · rw [hs] at hlf
        cases hlf
        omega
      · rw [hnone] at hs; cases hs
  · cases hx : firstOccur readyMarkerCRLF (s.take k) with
    | none => rfl
    | some j =>
      exfalso
      have hs : firstOccur readyMarkerCRLF s = some j :=
        firstOccur_of_prefix readyMarkerCRLF_ne htp hx
      have hfit := firstOccur_some_fit readyMarkerCRLF_ne hx
      have hlen : (s.take k).length ≤ k := by
        simp [List.length_take]
      have h9 : readyMarkerCRLF.length = 9 := by decide
      rcases hgood with ⟨_, hmin⟩ | ⟨_, hcrlf⟩
      · have := hmin j hs
        omega
      · rw [hcrlf] at hs
        cases hs
        omega

/-- C4 (amended): for every byte stream and every chunking of it into
nonempty reads, whenever the first occurrence of a ready marker is of the LF
form, or only the CRLF form occurs, `read_response_until_ready` returns
exactly the bytes preceding that first marker occurrence, the marker itself
is discarded, and the returned payload contains no marker bytes.  (When a
CRLF marker occurs strictly before the first LF marker the code prefers the
later LF hit, which is the corrected part of the claim.) -/
theorem read_response_frames_stream (s : List Nat) (chunks : List (List Nat))
    (k : Nat) (drainRes : Except ExifToolError (List String))
    (hcat : chunks.flatten = s) (hne : ∀ c ∈ chunks, c ≠ [])
    (hgood : (firstOccur readyMarkerLF s = some k ∧
                ∀ q, firstOccur readyMarkerCRLF s = some q → k ≤ q)
             ∨ (firstOccur readyMarkerLF s = none ∧
                firstOccur readyMarkerCRLF s = some k)) :
    read_response_until_ready drainRes chunks = .ok (s.take k) ∧
      firstOccur readyMarkerLF (s.take k) = none ∧
      firstOccur readyMarkerCRLF (s.take k) = none := by
  refine ⟨?_, payload_marker_free s k hgood⟩
  unfold read_response_until_ready
  exact readLoop_good s k hgood drainRes chunks [] (by simpa using hcat) hne rfl rfl

/-- C4 witness: a stream `AB<LF marker>C` delivered in three reads yields
exactly the payload `AB`. -/
theorem read_response_frames_stream_witness :
    read_response_until_ready (.ok []) [[65], 66 :: readyMarkerLF, [67]] =
      .ok [65, 66] := by
  have h := read_response_frames_stream ([65, 66] ++ readyMarkerLF ++ [67])
    [[65], 66 :: readyMarkerLF, [67]] 2 (.ok []) (by decide) (by decide)
    (Or.inl ⟨by decide, by
      intro q hq
      have hn : firstOccur readyMarkerCRLF ([65, 66] ++ readyMarkerLF ++ [67]) = none := by
        decide
      rw [hn] at hq
      cases hq⟩)
  exact h.1

/-- C4 counterexample: with a CRLF marker embedded before the first LF
marker, the framer returns a payload that extends past the first marker
occurrence and contains the CRLF marker bytes, contradicting the claim that
the payload is exactly the bytes before the first marker and never contains
marker bytes. -/
theorem framer_cex :
    read_response_until_ready (.ok [])
        [[65] ++ readyMarkerCRLF ++ [66] ++ readyMarkerLF ++ [67]] =
      .ok ([65] ++ readyMarkerCRLF ++ [66])
    ∧ firstOccur readyMarkerCRLF ([65] ++ readyMarkerCRLF ++ [66]) = some 1
    ∧ ([65] ++ readyMarkerCRLF ++ [66]).take 1 ≠ [65] ++ readyMarkerCRLF ++ [66] := by
  refine ⟨rfl, by decide, by decide⟩

theorem readLoop_eof (drainRes : Except ExifToolError (List String))
    (rest : List (List Nat)) :
    ∀ pre buffer, (∀ c ∈ pre, c ≠ []) →
      firstOccur readyMarkerLF (buffer ++ pre.flatten) = none →
      firstOccur readyMarkerCRLF (buffer ++ pre.flatten) = none →
      readLoop drainRes buffer (pre ++ [] :: rest) = eofResult drainRes := by
  intro pre
  induction pre with
  | nil =>
    intro buffer _ _ _
    rw [List.nil_append, readLoop, if_pos rfl]
  | cons c cs ih =>
    intro buffer hne h1 h2
    have hcne : c ≠ [] := hne c (by simp)
    have hpre : (buffer ++ c) <+: buffer ++ (c :: cs).flatten := by
      refine prefix_of_append_eq (t := buffer ++ c) (r := cs.flatten) ?_
      simp [List.append_assoc]
    have h1c : firstOccur readyMarkerLF (buffer ++ c) = none :=
      firstOccur_none_of_prefix readyMarkerLF_ne hpre h1
    have h2c : firstOccur readyMarkerCRLF (buffer ++ c) = none :=
      firstOccur_none_of_prefix readyMarkerCRLF_ne hpre h2
    rw [List.cons_append, readLoop, if_neg hcne]
    simp only [h1c, h2c]
    refine ih (buffer ++ c) (fun d hd => hne d (by simp [hd])) ?_ ?_
    · simpa [List.append_assoc] using h1
    · simpa [List.append_assoc] using h2

/-- C5 (confirmed): when the stdout stream reaches EOF (a zero-byte read)
before any ready marker was seen, the framer never returns a successful
payload: with at least one drained diagnostic line it fails with a process
error carrying those lines, and otherwise (no lines, or the drain itself
failed) it fails with `ProcessTerminated`. -/
theorem framer_eof_spec (pre rest : List (List Nat))
    (drainRes : Except ExifToolError (List String))
    (hne : ∀ c ∈ pre, c ≠ [])
    (h1 : firstOccur readyMarkerLF pre.flatten = none)
    (h2 : firstOccur readyMarkerCRLF pre.flatten = none) :
    (∀ l, drainRes = .ok l → l ≠ [] →
        read_response_until_ready drainRes (pre ++ [] :: rest) =
          .error (.ExifToolProcess
            ("Process terminated unexpectedly. Stderr:\n" ++ joinNl l)
            (joinNl l) "<unknown - process terminated>"))
    ∧ (drainRes = .ok [] →
        read_response_until_ready drainRes (pre ++ [] :: rest) =
          .error .ProcessTerminated)
    ∧ (∀ e, drainRes = .error e →
        read_response_until_ready drainRes (pre ++ [] :: rest) =
          .error .ProcessTerminated) := by
  have hloop : read_response_until_ready drainRes (pre ++ [] :: rest) =
      eofResult drainRes := by
    unfold read_response_until_ready
    exact readLoop_eof drainRes rest pre [] hne (by simpa using h1) (by simpa using h2)
  refine ⟨?_, ?_, ?_⟩
  · intro l hl hlne
    rw [hloop, hl]
    simp [eofResult, hlne]
  · intro hl
    rw [hloop, hl]
    simp [eofResult]
  · intro e he
    rw [hloop, he]
    simp [eofResult]

/-- C5 witness: a single read of the byte `A` followed by EOF, with one
diagnostic line available, fails with the process error carrying the line. -/
theorem framer_eof_spec_witness :
    read_response_until_ready (.ok ["Error: x"]) [[65], []] =
      .error (.ExifToolProcess
        ("Process terminated unexpectedly. Stderr:\n" ++ joinNl ["Error: x"])
        (joinNl ["Error: x"]) "<unknown - process terminated>") := by
  have h := framer_eof_spec [[65]] [] (.ok ["Error: x"])
    (by decide) (by decide) (by decide)
  exact h.1 ["Error: x"] rfl (by decide)

/-! ### Stderr drain lemmas -/

theorem drainAvailable_disconnect (evs : List RecvEvent) :
    ∀ (lines : List String) (acc : List String),
      drainAvailable (lines.map RecvEvent.line ++
        RecvEvent.disconnected :: evs) acc = .error .StderrDisconnected := by
  intro lines
  induction lines with
  | nil => intro acc; rfl
  | cons l ls ih =>
    intro acc
    simpa [drainAvailable, List.append_eq] using ih (acc ++ [l])

theorem drainAvailable_collect (rest : List RecvEvent) :
    ∀ (lines : List String) (acc : List String),
      drainAvailable (lines.map RecvEvent.line ++
        RecvEvent.empty :: rest) acc = .ok (acc ++ lines, rest) := by
  intro lines
  induction lines with
  | nil => intro acc; simp [drainAvailable]
  | cons l ls ih =>
    intro acc
    simp only [List.map_cons, List.cons_append, drainAvailable, List.append_eq]
    rw [ih (acc ++ [l])]
    simp

/-- C7 (corrected): a permanent disconnection observed during the initial
non-blocking drain always fails with `StderrDisconnected`, even when lines
were already captured during that drain; only a disconnection observed
during the subsequent timed polling phase, after at least one line was
captured, makes the drain succeed with the captured lines. -/
theorem drain_stderr_disconnect_spec (lines : List String) (evs : List RecvEvent)
    (fuel : Nat) :
    (drain_stderr fuel (lines.map RecvEvent.line ++ RecvEvent.disconnected :: evs) =
        .error .StderrDisconnected)
    ∧ (lines ≠ [] →
        drain_stderr (fuel + 1) (lines.map RecvEvent.line ++
            RecvEvent.empty :: RecvEvent.disconnected :: evs) = .ok lines) := by
  constructor
  · unfold drain_stderr
    rw [drainAvailable_disconnect evs lines []]
  · intro hne
    unfold drain_stderr
    rw [drainAvailable_collect (RecvEvent.disconnected :: evs) lines []]
    simp only [List.nil_append, pollLoop]
    rw [if_neg hne]

/-- C7 witness: with one captured line, polling-phase disconnection returns
the line, per the amended claim's second part. -/
theorem drain_stderr_disconnect_witness :
    drain_stderr 1 [RecvEvent.line "Warning: w", RecvEvent.empty,
        RecvEvent.disconnected] = .ok ["Warning: w"] := by
  have h := (drain_stderr_disconnect_spec ["Warning: w"] [] 0).2 (by decide)
  simpa using h

/-- C7 counterexample: the channel hands over one line and then reports
disconnection during the initial drain; the code fails with
`StderrDisconnected` although a line was already captured, contradicting the
claim that the drain succeeds whenever disconnection follows at least one
captured line. -/
theorem drain_stderr_cex :
    drain_stderr 3 [RecvEvent.line "Error: oops", RecvEvent.disconnected] =
        .error .StderrDisconnected
    ∧ drain_stderr 3 [RecvEvent.line "Error: oops", RecvEvent.disconnected] ≠
        .ok ["Error: oops"] := by
  refine ⟨rfl, ?_⟩
  intro h
  exact Except.noConfusion h

/-! ### Stderr classification lemmas -/

theorem classifyStderr_skip (cmd comb : String) :
    ∀ pre tail, (∀ p ∈ pre, stripFnf p = none ∧ containsSubstring p "Error:" = false) →
      classifyStderr cmd comb (pre ++ tail) = classifyStderr cmd comb tail := by
  intro pre
  induction pre with
  | nil => intro tail _; rfl
  | cons p ps ih =>
    intro tail hben
    have hp := hben p (by simp)
    rw [List.cons_append, classifyStderr, hp.1, hp.2]
    simp only [Bool.false_eq_true, if_false]
    exact ih tail (fun q hq => hben q (by simp [hq]))

/-- C6 (corrected): `execute_raw` classifies drained stderr lines in order;
the first line that matches either pattern decides the error.  When the
first matching line carries the file-not-found prefix, the result is
`FileNotFound` whose path is the trimmed remainder of that line and whose
command is the space-joined argument list (so such a line itself never
yields `ExifToolProcess`); when no line matches either pattern (warnings
included), the call succeeds with the stdout payload.  (An earlier line
containing the generic error marker preempts a later file-not-found line,
which is the corrected part of the claim.) -/
theorem execute_raw_classification_spec (args : List String)
    (chunks : List (List Nat)) (events : List RecvEvent) (fuel : Nat)
    (bytes : List Nat) (lines : List String)
    (hstdout : read_response_until_ready (drain_stderr fuel events) chunks = .ok bytes)
    (hdrain : drain_stderr fuel events = .ok lines) :
    (∀ pre l rest f, lines = pre ++ l :: rest →
        (∀ p ∈ pre, stripFnf p = none ∧ containsSubstring p "Error:" = false) →
        stripFnf l = some f →
        execute_raw args chunks events fuel =
          .error (.FileNotFound (strTrim f) (joinSpace args)))
    ∧ ((∀ p ∈ lines, stripFnf p = none ∧ containsSubstring p "Error:" = false) →
        execute_raw args chunks events fuel = .ok bytes) := by
  have hstdout2 : read_response_until_ready (Except.ok lines) chunks = .ok bytes := by
    rw [← hdrain]
    exact hstdout
  constructor
  · intro pre l rest f hsplit hben hl
    rw [hsplit] at hstdout2
    simp only [execute_raw, hdrain, hsplit, hstdout2]
    rw [if_neg (by simp)]
    rw [classifyStderr_skip _ _ pre (l :: rest) hben]
    simp only [classifyStderr, hl]
  · intro hben
    simp only [execute_raw, hdrain, hstdout2]
    by_cases hemp : lines = []
    · rw [if_pos hemp]
    · rw [if_neg hemp]
      have h := classifyStderr_skip (joinSpace args) (joinNl lines) lines [] hben
      rw [List.append_nil] at h
      rw [h]
      rfl

/-- C6 witness: a single file-not-found diagnostic line produces
`FileNotFound` with the trimmed path remainder and the joined command. -/
theorem execute_raw_classification_witness :
    execute_raw ["foo.jpg"] [readyMarkerLF]
        [RecvEvent.line "Error: File not found - foo.jpg"] 0 =
      .error (.FileNotFound "foo.jpg" "foo.jpg") := by
  have h := (execute_raw_classification_spec ["foo.jpg"] [readyMarkerLF]
      [RecvEvent.line "Error: File not found - foo.jpg"] 0 []
      ["Error: File not found - foo.jpg"] rfl rfl).1
      [] "Error: File not found - foo.jpg" [] "foo.jpg" rfl
      (by intro p hp; cases hp) (by decide)
  simpa using h

/-- C6 counterexample: the drained lines contain a file-not-found line, but
an earlier line containing the generic error marker is classified first, so
the call fails with `ExifToolProcess` and not with `FileNotFound`,
contradicting the claim's universal head. -/
theorem execute_raw_cex :
    execute_raw ["foo.jpg"] [readyMarkerLF]
        [RecvEvent.line "Error: broke",
         RecvEvent.line "Error: File not found - foo.jpg"] 0 =
      .error (.ExifToolProcess "Error: broke"
        "Error: broke\nError: File not found - foo.jpg" "foo.jpg") := by
  rfl

/-! ### JSON layer theorems -/

/-- Whether an error is the `TagNotFound` kind. -/
def isTagNotFound : ExifToolError → Bool
  | .TagNotFound _ _ => true
  | _ => false

/-- C2 (amended): for an empty sequence of input paths, `json_batch` fails
with `UnexpectedFormat` (empty path field, comma-joined extra arguments)
without sending any command to the subprocess — the result is the same for
every subprocess behaviour `exec` and every parser. -/
theorem json_batch_empty_spec
    (exec : List String → Except ExifToolError (List Nat))
    (parse : List Nat → Option JValue) (extra_args : List String) :
    json_batch exec parse [] extra_args =
      .error (.UnexpectedFormat "" (joinComma extra_args)) := rfl

/-- C2 counterexample: with empty paths the batch query returns an
`UnexpectedFormat` error, not a successful empty sequence as claimed. -/
theorem json_batch_empty_cex :
    json_batch (fun _ => .ok []) (fun _ => none) [] [] =
        .error (.UnexpectedFormat "" "")
    ∧ json_batch (fun _ => .ok []) (fun _ => none) [] [] ≠ .ok [] := by
  refine ⟨rfl, ?_⟩
  intro h
  exact Except.noConfusion h

/-- C3 (amended): `json_execute` prepends the JSON-output flag to the
arguments, and when `execute_raw` returns an empty payload it fails with
`UnexpectedFormat` (first non-flag argument as path, the space-joined
prepended command line) — the error vocabulary of `ExifToolError` has no
separate empty-result kind. -/
theorem json_execute_empty_spec
    (exec : List String → Except ExifToolError (List Nat))
    (parse : List Nat → Option JValue) (args : List String)
    (h : exec ("-json" :: args) = .ok []) :
    json_execute exec parse args =
      .error (.UnexpectedFormat (firstNonFlag args)
        (joinSpace ("-json" :: args))) := by
  simp only [json_execute, h]
  rfl

/-- C3 witness: an empty payload for `file.jpg` yields the
`UnexpectedFormat` error with the file as path and the prepended command. -/
theorem json_execute_empty_spec_witness :
    json_execute (fun _ => .ok []) (fun _ => none) ["file.jpg"] =
      .error (.UnexpectedFormat "file.jpg" "-json file.jpg") := by
  have h := json_execute_empty_spec (fun _ => .ok []) (fun _ => none)
    ["file.jpg"] rfl
  exact h

/-- C3 counterexample: on an empty payload the structured query fails with
the `UnexpectedFormat` kind; there is no distinct `EmptyResult` kind in the
code's error vocabulary, contradicting the claim. -/
theorem json_execute_empty_cex :
    json_execute (fun _ => .ok []) (fun _ => some .null) ["f.jpg"] =
      .error (.UnexpectedFormat "f.jpg" "-json f.jpg") := rfl

/-- C9 (confirmed): for a non-empty sequence of N input paths and any extra
arguments, when the subprocess's decoded JSON reply for the assembled
command is an array with one entry per path (the external tool's documented
contract), `json_batch` returns exactly that array verbatim: N value trees,
in the order the paths were supplied. -/
theorem json_batch_order_spec
    (exec : List String → Except ExifToolError (List Nat))
    (parse : List Nat → Option JValue)
    (file_paths extra_args : List String) (a : List JValue)
    (hne : file_paths ≠ [])
    (hexec : json_execute exec parse (extra_args ++ file_paths) = .ok (.arr a))
    (hlen : a.length = file_paths.length) :
    json_batch exec parse file_paths extra_args = .ok a ∧
      a.length = file_paths.length := by
  refine ⟨?_, hlen⟩
  simp only [json_batch, hexec]
  rw [if_neg hne]

/-- C9 witness: two paths, a two-element decoded array, returned verbatim. -/
theorem json_batch_order_spec_witness :
    json_batch (fun _ => .ok [1])
        (fun _ => some (.arr [.str "one", .str "two"]))
        ["a.jpg", "b.jpg"] ["-g1"] =
      .ok [.str "one", .str "two"] := by
  have h := json_batch_order_spec (fun _ => .ok [1])
    (fun _ => some (.arr [.str "one", .str "two"]))
    ["a.jpg", "b.jpg"] ["-g1"] [.str "one", .str "two"]
    (by decide) rfl rfl
  exact h.1

/-- C8 (confirmed): `read_tag_binary` returns `TagNotFound` with the given
path and tag exactly when the raw execution succeeds with an empty payload,
returns a non-empty payload unchanged, and hence never succeeds with an
empty byte sequence. -/
theorem read_tag_binary_spec
    (exec : List String → Except ExifToolError (List Nat))
    (p tag : String) :
    (exec [p, "-b", "-" ++ tag] = .ok [] →
        read_tag_binary exec p tag = .error (.TagNotFound p tag))
    ∧ (∀ bytes, exec [p, "-b", "-" ++ tag] = .ok bytes → bytes ≠ [] →
        read_tag_binary exec p tag = .ok bytes)
    ∧ (∀ bytes, read_tag_binary exec p tag = .ok bytes → bytes ≠ []) := by
  refine ⟨?_, ?_, ?_⟩
  · intro h
    simp only [read_tag_binary, h]
    rfl
  · intro bytes h hne
    simp only [read_tag_binary, h]
    rw [if_neg hne]
  · intro bytes h
    unfold read_tag_binary at h
    cases hx : exec [p, "-b", "-" ++ tag] with
    | error e => rw [hx] at h; cases h
    | ok out =>
      rw [hx] at h
      simp only at h
      by_cases hemp : out = []
      · rw [if_pos hemp] at h
        cases h
      · rw [if_neg hemp] at h
        cases h
        exact hemp

/-- C8 witness: an empty binary payload is reported as `TagNotFound` for the
requested path and tag. -/
theorem read_tag_binary_spec_witness :
    read_tag_binary (fun _ => .ok []) "img.jpg" "ThumbnailImage" =
      .error (.TagNotFound "img.jpg" "ThumbnailImage") := by
  exact (read_tag_binary_spec (fun _ => .ok []) "img.jpg" "ThumbnailImage").1 rfl

/-- C1 (confirmed): `read_tag` first converts the value obtained from
`json_tag`; a conversion failure on a present value always yields
`TagDeserialization` with the requested path and tag (never the null
fallback); only on `TagNotFound` does it deserialize the null placeholder,
returning the resulting absent value on success and re-raising `TagNotFound`
with the same path and tag on failure; every other error propagates
unchanged. -/
theorem read_tag_spec {T : Type} (fromValue : JValue → Option T)
    (exec : List String → Except ExifToolError (List Nat))
    (parse : List Nat → Option JValue) (p tag : String) :
    (∀ v, json_tag exec parse p tag = .ok v →
        read_tag fromValue exec parse p tag =
          (match fromValue v with
           | some t => .ok t
           | none => .error (.TagDeserialization p tag)))
    ∧ (∀ p0 t0, json_tag exec parse p tag = .error (.TagNotFound p0 t0) →
        read_tag fromValue exec parse p tag =
          (match fromValue JValue.null with
           | some t => .ok t
           | none => .error (.TagNotFound p tag)))
    ∧ (∀ e, json_tag exec parse p tag = .error e → isTagNotFound e = false →
        read_tag fromValue exec parse p tag = .error e) := by
  refine ⟨?_, ?_, ?_⟩
  · intro v hv
    simp only [read_tag, hv]
  · intro p0 t0 hv
    simp only [read_tag, hv]
  · intro e he hnot
    simp only [read_tag, he]
    cases e <;> simp_all [isTagNotFound]

/-- C1 witness: a missing tag read into an option-like target yields the
absent value through the null fallback. -/
theorem read_tag_spec_witness :
    read_tag
      (fun v => match v with
        | JValue.null => some (none : Option String)
        | JValue.str s => some (some s)
        | _ => none)
      (fun _ => .ok [1])
      (fun _ => some (.arr [.obj [("SourceFile", .str "f.jpg")]]))
      "f.jpg" "Missing" = .ok (none : Option String) := by
  exact (read_tag_spec
      (fun v => match v with
        | JValue.null => some (none : Option String)
        | JValue.str s => some (some s)
        | _ => none)
      (fun _ => .ok [1])
      (fun _ => some (.arr [.obj [("SourceFile", .str "f.jpg")]]))
      "f.jpg" "Missing").2.1 "f.jpg" "Missing" rfl

/-- C10 (confirmed, implicit claim): when the single-tag JSON object carries
the requested tag key with a JSON null value, `json_tag` returns that null
successfully rather than `TagNotFound`; consequently an option-like target
obtains its absent value through the direct conversion path, and a target
that rejects null fails with `TagDeserialization`, not `TagNotFound`. -/
theorem json_tag_null_spec {T : Type}
    (exec : List String → Except ExifToolError (List Nat))
    (parse : List Nat → Option JValue) (p tag : String) (m : JValue)
    (fromValue : JValue → Option T)
    (hjson : json exec parse p ["-" ++ tag] = .ok m)
    (hget : objGet m tag = some JValue.null) :
    json_tag exec parse p tag = .ok JValue.null
    ∧ (∀ t0, fromValue JValue.null = some t0 →
        read_tag fromValue exec parse p tag = .ok t0)
    ∧ (fromValue JValue.null = none →
        read_tag fromValue exec parse p tag =
          .error (.TagDeserialization p tag)) := by
  have h1 : json_tag exec parse p tag = .ok JValue.null := by
    simp only [json_tag, hjson, hget]
  refine ⟨h1, ?_, ?_⟩
  · intro t0 hfv
    simp only [read_tag, h1, hfv]
  · intro hfv
    simp only [read_tag, h1, hfv]

/-- C10 witness: a present-but-null `Rating` tag read back as a JSON value
is null, not `TagNotFound`. -/
theorem json_tag_null_spec_witness :
    json_tag (fun _ => .ok [1])
      (fun _ => some (.arr [.obj [("SourceFile", .str "f.jpg"),
        ("Rating", .null)]]))
      "f.jpg" "Rating" = .ok JValue.null := by
  exact (json_tag_null_spec (fun _ => .ok [1])
    (fun _ => some (.arr [.obj [("SourceFile", .str "f.jpg"),
      ("Rating", .null)]]))
    "f.jpg" "Rating" (.obj [("SourceFile", .str "f.jpg"), ("Rating", .null)])
    (fun v => some v) rfl rfl).1
